import Mathlib

/-!
Verification of the course-schedule normalization pipeline
(`clean_course_data.py`): a shallow embedding of its string helpers
(`time_to_minutes`, `parse_days`, `normalize_course_type`,
`build_course_code`) and of the per-row normalize/filter/expand/emit loop,
together with theorems settling the specified properties.

Python strings are modelled over their ASCII fragment: `str.strip()`
removes the ASCII whitespace characters, `str.upper()` maps the 26 basic
latin lowercase letters, and `int(...)` accepts an optionally signed,
optionally whitespace-surrounded digit string with single underscores
between digits.  All inputs exercised by the specification are ASCII.
-/

namespace ClassAllo

/-- ASCII whitespace as stripped by Python `str.strip()`. -/
def pySpace (c : Char) : Bool :=
  c = ' ' || c = '\t' || c = '\n' || c = '\r' || c = '\x0b' || c = '\x0c'

/-- Remove leading and trailing characters satisfying `p`. -/
def stripChars (p : Char → Bool) (l : List Char) : List Char :=
  ((l.dropWhile p).reverse.dropWhile p).reverse

/-- Python `s.strip()`. -/
def pyStrip (s : String) : String := ⟨stripChars pySpace s.data⟩

/-- Python `s.strip(Char.quote)`: removes ALL leading and trailing
double-quote characters (not just one layer). -/
def pyStripQuotes (s : String) : String := ⟨stripChars (fun c => c = '"') s.data⟩

/-- The lowercase-to-uppercase table for the basic latin letters. -/
def upperPairs : List (Char × Char) :=
  [('a','A'), ('b','B'), ('c','C'), ('d','D'), ('e','E'), ('f','F'),
   ('g','G'), ('h','H'), ('i','I'), ('j','J'), ('k','K'), ('l','L'),
   ('m','M'), ('n','N'), ('o','O'), ('p','P'), ('q','Q'), ('r','R'),
   ('s','S'), ('t','T'), ('u','U'), ('v','V'), ('w','W'), ('x','X'),
   ('y','Y'), ('z','Z')]

/-- Python `str.upper()` on a single character (ASCII fragment). -/
def asciiUpper (c : Char) : Char :=
  ((upperPairs.find? (fun p => p.1 == c)).map Prod.snd).getD c

/-- Python `s.upper()` (ASCII fragment). -/
def pyUpper (s : String) : String := ⟨s.data.map asciiUpper⟩

/-- After the first digit, Python's integer literals allow further digits
with single underscores between digits. -/
def digitsCore : List Char → Bool
  | [] => true
  | '_' :: c :: rest => c.isDigit && digitsCore rest
  | c :: rest => c.isDigit && digitsCore rest

/-- A nonempty digit string with single underscores between digits. -/
def digitsOk (l : List Char) : Bool :=
  match l with
  | [] => false
  | c :: _ => c.isDigit && digitsCore l

/-- Numeric value of a digit-and-underscore string. -/
def digitsVal (l : List Char) : Nat :=
  l.foldl (fun acc c => if c = '_' then acc else acc * 10 + (c.toNat - 48)) 0

/-- Python `int(s)`: `some` the value on a valid integer literal, `none`
where Python raises `ValueError` (the callers catch it). -/
def pyInt (s : String) : Option Int :=
  let t := stripChars pySpace s.data
  match t with
  | '+' :: rest => if digitsOk rest then some (digitsVal rest : Int) else none
  | '-' :: rest => if digitsOk rest then some (-(digitsVal rest : Int)) else none
  | _ => if digitsOk t then some (digitsVal t : Int) else none

/-- Python `s.split(sep)` for a one-character separator. -/
def splitOnChar (sep : Char) : List Char → List (List Char)
  | [] => [[]]
  | c :: rest =>
    match splitOnChar sep rest with
    | [] => [[]]
    | g :: gs => if c = sep then [] :: g :: gs else (c :: g) :: gs

/-- `time_to_minutes` from `clean_course_data.py`: convert `"HH:MM"` to
minutes since midnight; `none` models Python returning `None` (empty or
blank input, or a `ValueError` from the parse caught by the function). -/
def time_to_minutes (time_str : String) : Option Int :=
  if time_str = "" || pyStrip time_str = "" then none
  else
    match (splitOnChar ':' (pyStrip time_str).data).map (fun tok => pyInt ⟨tok⟩) with
    | [some hours, some minutes] => some (hours * 60 + minutes)
    | _ => none

/-- The recognized weekday codes (keys of the source's `day_map`, which
maps each to itself). -/
def dayChars : List Char := ['M', 'T', 'W', 'R', 'F']

/-- The source's duplicate-removal loop: a `seen` set (as a list) and the
accumulated `unique_days`, appending each unseen day. -/
def dedupLoop : List Char → List Char → List Char → List Char
  | _, unique, [] => unique
  | seen, unique, d :: rest =>
    if seen.contains d then dedupLoop seen unique rest
    else dedupLoop (d :: seen) (unique ++ [d]) rest

/-- `parse_days` from `clean_course_data.py`: uppercase the input, keep
the characters in `day_map`, drop duplicates keeping first occurrences,
return them as one-letter strings. -/
def parse_days (days_str : String) : List String :=
  if days_str = "" then []
  else
    let days := (pyUpper days_str).data.filter (fun c => dayChars.contains c)
    (dedupLoop [] [] days).map (fun c => String.mk [c])

/-- The source's `type_map` (every entry maps a code to itself). -/
def typeMap : List (String × String) :=
  [("LEC","LEC"), ("LAB","LAB"), ("LCLB","LCLB"),
   ("HYBD","HYBD"), ("ONL","ONL"), ("TD","TD")]

/-- `normalize_course_type` from `clean_course_data.py`. -/
def normalize_course_type (lec_lab : String) : String :=
  if lec_lab = "" then ""
  else
    let normalized := pyUpper (pyStrip lec_lab)
    ((typeMap.find? (fun p => p.1 == normalized)).map Prod.snd).getD normalized

/-- `build_course_code` from `clean_course_data.py`. -/
def build_course_code (subj course_num : String) : String :=
  let s := if subj = "" then "" else pyStrip subj
  let n := if course_num = "" then "" else pyStrip course_num
  pyStrip (s ++ " " ++ n)

/-- A raw CSV row as Python's `csv.DictReader` yields it: an ordered
association of column names to values, a value possibly `None` (for a
short row).  Later bindings of the same (stripped) key overwrite earlier
ones, as in the source's dict comprehension. -/
abbrev Row := List (String × Option String)

/-- The source's `normalized_row`: keys stripped of whitespace. -/
def normalizeRow (row : Row) : Row := row.map (fun p => (pyStrip p.1, p.2))

/-- `normalized_row.get(key)`: `none` when the column is absent. -/
def dictGet (row : Row) (key : String) : Option (Option String) :=
  ((normalizeRow row).reverse.find? (fun p => p.1 == key)).map Prod.snd

/-- `normalized_row.get(key) or the empty string`: a missing column, a
`None` value and an empty value all yield the empty string. -/
def getField (row : Row) (key : String) : String :=
  match dictGet row key with
  | some (some v) => v
  | _ => ""

/-- The source's per-field normalization: `.strip().strip(quote)`. -/
def normField (row : Row) (key : String) : String :=
  pyStripQuotes (pyStrip (getField row key))

/-- Enrollment coercion: `int(s) if s else None`, `ValueError` caught. -/
def enrollVal (s : String) : Option Int :=
  if s = "" then none else pyInt s

/-- One emitted record (the dict built in the source's loop; `sec` holds
the value serialized under the key `section`). -/
structure MeetingRecord where
  course : String
  title : String
  sec : String
  type : String
  building : String
  room : String
  day : String
  start_minutes : Int
  end_minutes : Int
  max_enrollment : Option Int
  current_enrollment : Option Int
deriving DecidableEq

/-- The body of the source's `for row in reader` loop: normalize the
fields, apply the filters, encode the times, expand the days, and emit
zero or more records. -/
def processRow (row : Row) : List MeetingRecord :=
  let subj := normField row "Subj"
  let course_num := normField row "#"
  let title := normField row "Title"
  let sec := normField row "Sec"
  let lec_lab := normField row "Lec Lab"
  let start_time := normField row "Start Time"
  let end_time := normField row "End Time"
  let days := normField row "Days"
  let bldg := normField row "Bldg"
  let room := normField row "Room"
  let max_enrollment := enrollVal (normField row "Max Enrollment")
  let current_enrollment := enrollVal (normField row "Current Enrollment")
  if pyUpper start_time = "TBA" ∨ pyUpper end_time = "TBA" ∨
      start_time = "" ∨ end_time = "" then []
  else if pyUpper bldg = "ONLINE" ∨ bldg = "" ∨ pyStrip bldg = "" then []
  else if pyUpper room = "SEE NOTES" then []
  else
    let start_minutes := time_to_minutes start_time
    let end_minutes := time_to_minutes end_time
    if start_minutes = none ∨ end_minutes = none then []
    else
      let day_list := parse_days days
      if day_list = [] then []
      else
        let course_code := build_course_code subj course_num
        let course_type := normalize_course_type lec_lab
        day_list.map (fun day =>
          { course := course_code, title := title, sec := sec,
            type := course_type, building := bldg, room := room,
            day := day, start_minutes := start_minutes.getD 0,
            end_minutes := end_minutes.getD 0,
            max_enrollment := max_enrollment,
            current_enrollment := current_enrollment })

/-- `clean_course_data`, restricted to its pure part: the list of records
accumulated over the input rows, in input order. -/
def clean_course_data (rows : List Row) : List MeetingRecord :=
  (rows.map processRow).flatten

/-- A serialized JSON value of the shapes the record dict holds. -/
inductive JVal where
  | str : String → JVal
  | int : Int → JVal
  | null : JVal
deriving DecidableEq

/-- An optional integer as serialized by `json.dump`. -/
def optJ : Option Int → JVal
  | some v => .int v
  | none => .null

/-- The key/value pairs of the dict the source builds for one record, in
the dict-literal (hence serialization) order. -/
def recordPairs (r : MeetingRecord) : List (String × JVal) :=
  [("course", .str r.course), ("title", .str r.title),
   ("section", .str r.sec), ("type", .str r.type),
   ("building", .str r.building), ("room", .str r.room),
   ("day", .str r.day), ("start_minutes", .int r.start_minutes),
   ("end_minutes", .int r.end_minutes),
   ("max_enrollment", optJ r.max_enrollment),
   ("current_enrollment", optJ r.current_enrollment)]

/-- The exclusion condition exactly as the specification states it:
start/end time `TBA` (case-insensitively) or empty; building empty or
`ONLINE` (case-insensitively); room `SEE NOTES` (case-insensitively);
either time unparseable; no recognized weekday codes. -/
def claimExcluded (row : Row) : Prop :=
  pyUpper (normField row "Start Time") = "TBA" ∨
  normField row "Start Time" = "" ∨
  pyUpper (normField row "End Time") = "TBA" ∨
  normField row "End Time" = "" ∨
  normField row "Bldg" = "" ∨
  pyUpper (normField row "Bldg") = "ONLINE" ∨
  pyUpper (normField row "Room") = "SEE NOTES" ∨
  time_to_minutes (normField row "Start Time") = none ∨
  time_to_minutes (normField row "End Time") = none ∨
  parse_days (normField row "Days") = []

/-- The exclusion condition the code implements: the specification's
conditions plus the source's extra `bldg.strip() == empty` test, which
also drops a building consisting only of whitespace. -/
def codeExcluded (row : Row) : Prop :=
  claimExcluded row ∨ pyStrip (normField row "Bldg") = ""

instance (row : Row) : Decidable (claimExcluded row) := by
  unfold claimExcluded; infer_instance

instance (row : Row) : Decidable (codeExcluded row) := by
  unfold codeExcluded; infer_instance

/-- Regrouping the code's short-circuit tests into the specification's
(amended) order of conditions. -/
lemma orShuffle {a1 a2 a3 a4 b1 b2 b3 c d1 d2 e : Prop} :
    ((a1 ∨ a3 ∨ a2 ∨ a4) ∨ (b2 ∨ b1 ∨ b3) ∨ c ∨ (d1 ∨ d2) ∨ e) ↔
    ((a1 ∨ a2 ∨ a3 ∨ a4 ∨ b1 ∨ b2 ∨ c ∨ d1 ∨ d2 ∨ e) ∨ b3) := by
  tauto

/-- A row contributes no records exactly when the code's exclusion
condition holds. -/
lemma processRow_eq_nil_iff (row : Row) :
    processRow row = [] ↔ codeExcluded row := by
  unfold codeExcluded claimExcluded
  rw [← orShuffle]
  simp only [processRow]
  split_ifs with h1 h2 h3 h4 h5
  · exact iff_of_true rfl (Or.inl h1)
  · exact iff_of_true rfl (Or.inr (Or.inl h2))
  · exact iff_of_true rfl (Or.inr (Or.inr (Or.inl h3)))
  · exact iff_of_true rfl (Or.inr (Or.inr (Or.inr (Or.inl h4))))
  · exact iff_of_true rfl (Or.inr (Or.inr (Or.inr (Or.inr h5))))
  · simp only [List.map_eq_nil_iff]
    constructor
    · intro h; exact absurd h h5
    · intro h
      rcases h with h | h | h | h | h
      exacts [absurd h h1, absurd h h2, absurd h h3, absurd h h4,
        absurd h h5]

/-- On a non-excluded row, `processRow` emits one record per parsed
weekday, all fields except `day` shared and computed from the normalized
fields. -/
lemma processRow_shape (row : Row) (h : ¬ codeExcluded row) :
    ∃ sm em,
      time_to_minutes (normField row "Start Time") = some sm ∧
      time_to_minutes (normField row "End Time") = some em ∧
      processRow row = (parse_days (normField row "Days")).map (fun day =>
        { course := build_course_code (normField row "Subj") (normField row "#"),
          title := normField row "Title", sec := normField row "Sec",
          type := normalize_course_type (normField row "Lec Lab"),
          building := normField row "Bldg", room := normField row "Room",
          day := day, start_minutes := sm, end_minutes := em,
          max_enrollment := enrollVal (normField row "Max Enrollment"),
          current_enrollment := enrollVal (normField row "Current Enrollment") }) := by
  unfold codeExcluded claimExcluded at h
  push_neg at h
  obtain ⟨⟨h1, h2, h3, h4, h5, h6, h7, h8, h9, h10⟩, h11⟩ := h
  cases hst : time_to_minutes (normField row "Start Time") with
  | none => exact absurd hst h8
  | some sm =>
  cases het : time_to_minutes (normField row "End Time") with
  | none => exact absurd het h9
  | some em =>
  refine ⟨sm, em, rfl, rfl, ?_⟩
  have hA : ¬(pyUpper (normField row "Start Time") = "TBA" ∨
      pyUpper (normField row "End Time") = "TBA" ∨
      normField row "Start Time" = "" ∨ normField row "End Time" = "") := by
    simp only [not_or]; exact ⟨h1, h3, h2, h4⟩
  have hB : ¬(pyUpper (normField row "Bldg") = "ONLINE" ∨
      normField row "Bldg" = "" ∨ pyStrip (normField row "Bldg") = "") := by
    simp only [not_or]; exact ⟨h6, h5, h11⟩
  have hD : ¬(time_to_minutes (normField row "Start Time") = none ∨
      time_to_minutes (normField row "End Time") = none) := by
    simp only [not_or]; exact ⟨h8, h9⟩
  simp only [processRow]
  rw [if_neg hA, if_neg hB, if_neg h7, if_neg hD, if_neg h10]
  simp only [hst, het, Option.getD_some]

/-- Field equations for any record a row emits. -/
lemma mem_processRow (row : Row) (r : MeetingRecord)
    (hr : r ∈ processRow row) :
    time_to_minutes (normField row "Start Time") = some r.start_minutes ∧
    time_to_minutes (normField row "End Time") = some r.end_minutes ∧
    r.course = build_course_code (normField row "Subj") (normField row "#") ∧
    r.title = normField row "Title" ∧
    r.sec = normField row "Sec" ∧
    r.type = normalize_course_type (normField row "Lec Lab") ∧
    r.building = normField row "Bldg" ∧
    r.room = normField row "Room" ∧
    r.max_enrollment = enrollVal (normField row "Max Enrollment") ∧
    r.current_enrollment = enrollVal (normField row "Current Enrollment") ∧
    r.day ∈ parse_days (normField row "Days") := by
  have hne : processRow row ≠ [] := List.ne_nil_of_mem hr
  have hnc : ¬ codeExcluded row := fun hc =>
    hne ((processRow_eq_nil_iff row).mpr hc)
  obtain ⟨sm, em, hst, het, hmap⟩ := processRow_shape row hnc
  rw [hmap] at hr
  obtain ⟨day, hday, rfl⟩ := List.mem_map.mp hr
  exact ⟨hst, het, rfl, rfl, rfl, rfl, rfl, rfl, rfl, rfl, hday⟩

/-- One-letter string of a weekday character. -/
def dayStr (c : Char) : String := String.mk [c]

lemma dayStr_injective : Function.Injective dayStr := by
  intro a b h
  have := congrArg String.data h
  simpa [dayStr] using this

/-- The sequence of recognized weekday letters of a day pattern, as
one-letter strings, duplicates included, in order of occurrence. -/
def recognizedStrings (s : String) : List String :=
  ((pyUpper s).data.filter (fun c => dayChars.contains c)).map dayStr

/-- Specification-side duplicate removal keeping first occurrences. -/
def firstOccurStr (l : List String) : List String :=
  l.foldl (fun acc a => if a ∈ acc then acc else acc ++ [a]) []

lemma dedupLoop_cases (seen unique : List Char) (d : Char)
    (rest : List Char) :
    dedupLoop seen unique (d :: rest) =
      if seen.contains d then dedupLoop seen unique rest
      else dedupLoop (d :: seen) (unique ++ [d]) rest := rfl

lemma dedupLoop_map_foldl (l : List Char) :
    ∀ seen unique : List Char, (∀ c, c ∈ seen ↔ c ∈ unique) →
      (dedupLoop seen unique l).map dayStr =
        l.foldl (fun acc c => if dayStr c ∈ acc then acc
          else acc ++ [dayStr c]) (unique.map dayStr) := by
  induction l with
  | nil => intro seen unique _; rfl
  | cons d rest ih =>
    intro seen unique hinv
    rw [dedupLoop_cases, List.foldl_cons]
    by_cases hd : d ∈ unique
    · have hc : seen.contains d = true := by
        simpa using (hinv d).mpr hd
      have hmem : dayStr d ∈ unique.map dayStr :=
        List.mem_map.mpr ⟨d, hd, rfl⟩
      rw [if_pos hc, if_pos hmem]
      exact ih seen unique hinv
    · have hc : seen.contains d = false := by
        simpa using fun h => hd ((hinv d).mp h)
      have hmem : dayStr d ∉ unique.map dayStr := by
        intro h
        obtain ⟨c, hc', he⟩ := List.mem_map.mp h
        exact hd (dayStr_injective he ▸ hc')
      rw [hc, if_neg hmem]
      simp only [Bool.false_eq_true, if_false]
      rw [ih (d :: seen) (unique ++ [d]) (by
        intro c
        simp only [List.mem_cons, List.mem_append, List.mem_singleton,
          List.not_mem_nil, or_false]
        constructor
        · rintro (rfl | hcs)
          · exact Or.inr rfl
          · exact Or.inl ((hinv c).mp hcs)
        · rintro (hcu | rfl)
          · exact Or.inr ((hinv c).mpr hcu)
          · exact Or.inl rfl)]
      rw [List.map_append]
      rfl

/-- `parse_days` is exactly: keep the recognized letters in order, then
remove duplicates keeping first occurrences. -/
lemma parse_days_eq_firstOccur (s : String) :
    parse_days s = firstOccurStr (recognizedStrings s) := by
  unfold parse_days firstOccurStr recognizedStrings
  by_cases hs : s = ""
  · subst hs
    simp [pyUpper]
  · rw [if_neg hs, List.foldl_map]
    exact dedupLoop_map_foldl _ [] [] (by simp)

lemma firstOccur_aux_nodup (l : List String) :
    ∀ acc : List String, acc.Nodup →
      (l.foldl (fun acc a => if a ∈ acc then acc else acc ++ [a])
        acc).Nodup := by
  induction l with
  | nil => intro acc h; exact h
  | cons a rest ih =>
    intro acc hacc
    rw [List.foldl_cons]
    by_cases ha : a ∈ acc
    · rw [if_pos ha]; exact ih acc hacc
    · rw [if_neg ha]
      refine ih _ (List.Nodup.append hacc (List.nodup_singleton a) ?_)
      intro x hx hxa
      exact ha ((List.mem_singleton.mp hxa) ▸ hx)

lemma firstOccur_aux_mem (l : List String) :
    ∀ (acc : List String) (x : String),
      x ∈ l.foldl (fun acc a => if a ∈ acc then acc else acc ++ [a]) acc ↔
        x ∈ acc ∨ x ∈ l := by
  induction l with
  | nil => intro acc x; simp
  | cons a rest ih =>
    intro acc x
    rw [List.foldl_cons]
    by_cases ha : a ∈ acc
    · rw [if_pos ha, ih]
      simp only [List.mem_cons]
      constructor
      · rintro (hx | hx)
        · exact Or.inl hx
        · exact Or.inr (Or.inr hx)
      · rintro (hx | rfl | hx)
        · exact Or.inl hx
        · exact Or.inl ha
        · exact Or.inr hx
    · rw [if_neg ha, ih]
      simp only [List.mem_append, List.mem_singleton, List.mem_cons,
        List.not_mem_nil, or_false]
      constructor
      · rintro ((hx | rfl) | hx)
        · exact Or.inl hx
        · exact Or.inr (Or.inl rfl)
        · exact Or.inr (Or.inr hx)
      · rintro (hx | rfl | hx)
        · exact Or.inl (Or.inl hx)
        · exact Or.inl (Or.inr rfl)
        · exact Or.inr hx

lemma parse_days_nodup (s : String) : (parse_days s).Nodup := by
  rw [parse_days_eq_firstOccur]
  exact firstOccur_aux_nodup _ [] List.nodup_nil

lemma parse_days_mem (s : String) (d : String) :
    d ∈ parse_days s ↔ d ∈ recognizedStrings s := by
  rw [parse_days_eq_firstOccur, firstOccurStr, firstOccur_aux_mem]
  simp

lemma parse_days_subset (s : String) (d : String) (hd : d ∈ parse_days s) :
    d ∈ ["M", "T", "W", "R", "F"] := by
  rw [parse_days_mem] at hd
  obtain ⟨c, hc, rfl⟩ := List.mem_map.mp hd
  have hc2 : c ∈ dayChars := by
    have := (List.mem_filter.mp hc).2
    simpa using this
  rcases (by simpa [dayChars] using hc2 : c = 'M' ∨ c = 'T' ∨ c = 'W' ∨
      c = 'R' ∨ c = 'F') with rfl | rfl | rfl | rfl | rfl <;> decide

lemma asciiUpper_idem (c : Char) : asciiUpper (asciiUpper c) = asciiUpper c := by
  by_cases h : c ∈ upperPairs.map Prod.fst
  · rcases (by simpa [upperPairs] using h :
        c = 'a' ∨ c = 'b' ∨ c = 'c' ∨ c = 'd' ∨ c = 'e' ∨ c = 'f' ∨
        c = 'g' ∨ c = 'h' ∨ c = 'i' ∨ c = 'j' ∨ c = 'k' ∨ c = 'l' ∨
        c = 'm' ∨ c = 'n' ∨ c = 'o' ∨ c = 'p' ∨ c = 'q' ∨ c = 'r' ∨
        c = 's' ∨ c = 't' ∨ c = 'u' ∨ c = 'v' ∨ c = 'w' ∨ c = 'x' ∨
        c = 'y' ∨ c = 'z')
      with rfl | rfl | rfl | rfl | rfl | rfl | rfl | rfl | rfl | rfl |
        rfl | rfl | rfl | rfl | rfl | rfl | rfl | rfl | rfl | rfl | rfl |
        rfl | rfl | rfl | rfl | rfl <;> decide
  · have hf : upperPairs.find? (fun p => p.1 == c) = none := by
      rw [List.find?_eq_none]
      intro x hx hpx
      exact h (List.mem_map.mpr ⟨x, hx, by simpa using hpx⟩)
    have hfix : asciiUpper c = c := by
      simp [asciiUpper, hf]
    rw [hfix, hfix]

lemma pyUpper_idem (s : String) : pyUpper (pyUpper s) = pyUpper s := by
  unfold pyUpper
  simp only [List.map_map]
  congr 1
  exact List.map_congr_left (fun c _ => asciiUpper_idem c)

lemma pyUpper_eq_empty_iff (s : String) : pyUpper s = "" ↔ s = "" := by
  unfold pyUpper
  constructor
  · intro h
    have : s.data.map asciiUpper = [] := congrArg String.data h
    have : s.data = [] := by simpa using this
    cases s; simp_all
  · rintro rfl; rfl

/-- Recognition is case-insensitive: uppercasing the input first changes
nothing. -/
lemma parse_days_pyUpper (s : String) :
    parse_days (pyUpper s) = parse_days s := by
  unfold parse_days
  by_cases hs : s = ""
  · subst hs; rfl
  · rw [if_neg hs, if_neg (fun h => hs ((pyUpper_eq_empty_iff s).mp h))]
    rw [pyUpper_idem]

/-- The twelve columns the loop reads. -/
def expectedColumns : List String :=
  ["Subj", "#", "Title", "Sec", "Lec Lab", "Start Time", "End Time",
   "Days", "Bldg", "Room", "Max Enrollment", "Current Enrollment"]

/-- The row with every expected column present and bound to the string
the field extraction yields on `row` (the empty string for a missing
column or a `None` value). -/
def materialize (row : Row) : Row :=
  expectedColumns.map (fun k => (k, some (getField row k)))

/-- Per-row processing depends only on the extracted field values. -/
lemma processRow_congr (row₁ row₂ : Row)
    (h : ∀ k, k ∈ expectedColumns → getField row₁ k = getField row₂ k) :
    processRow row₁ = processRow row₂ := by
  have e1 := h "Subj" (by decide)
  have e2 := h "#" (by decide)
  have e3 := h "Title" (by decide)
  have e4 := h "Sec" (by decide)
  have e5 := h "Lec Lab" (by decide)
  have e6 := h "Start Time" (by decide)
  have e7 := h "End Time" (by decide)
  have e8 := h "Days" (by decide)
  have e9 := h "Bldg" (by decide)
  have e10 := h "Room" (by decide)
  have e11 := h "Max Enrollment" (by decide)
  have e12 := h "Current Enrollment" (by decide)
  simp only [processRow, normField, e1, e2, e3, e4, e5, e6, e7, e8, e9,
    e10, e11, e12]

lemma getField_materialize (row : Row) (k : String)
    (hk : k ∈ expectedColumns) :
    getField (materialize row) k = getField row k := by
  rcases (by simpa [expectedColumns] using hk :
      k = "Subj" ∨ k = "#" ∨ k = "Title" ∨ k = "Sec" ∨ k = "Lec Lab" ∨
      k = "Start Time" ∨ k = "End Time" ∨ k = "Days" ∨ k = "Bldg" ∨
      k = "Room" ∨ k = "Max Enrollment" ∨ k = "Current Enrollment")
    with rfl | rfl | rfl | rfl | rfl | rfl | rfl | rfl | rfl | rfl |
      rfl | rfl <;> rfl

lemma processRow_materialize (row : Row) :
    processRow (materialize row) = processRow row :=
  processRow_congr _ _ (fun k hk => getField_materialize row k hk)

/-! Concrete rows used as witnesses and counterexamples. -/

/-- The specification's end-to-end example row. -/
def sampleRow : Row :=
  [("Subj", some "ALE"), ("#", some "2170"), ("Title", some "Intro"),
   ("Sec", some "001"), ("Lec Lab", some "LEC"),
   ("Start Time", some "09:00"), ("End Time", some "09:50"),
   ("Days", some "MWF"), ("Bldg", some "SCI"), ("Room", some "101"),
   ("Max Enrollment", some "30"), ("Current Enrollment", some "28")]

/-- The first record the sample row produces. -/
def sampleRec : MeetingRecord :=
  { course := "ALE 2170", title := "Intro", sec := "001", type := "LEC",
    building := "SCI", room := "101", day := "M",
    start_minutes := 540, end_minutes := 590,
    max_enrollment := some 30, current_enrollment := some 28 }

/-- A row whose building field is a quoted blank: after stripping
whitespace and then quotes it is a nonempty, whitespace-only string. -/
def blankBldgRow : Row :=
  [("Subj", some "ALE"), ("#", some "2170"), ("Title", some "Intro"),
   ("Sec", some "001"), ("Lec Lab", some "LEC"),
   ("Start Time", some "09:00"), ("End Time", some "09:50"),
   ("Days", some "MWF"), ("Bldg", some "\" \""), ("Room", some "101"),
   ("Max Enrollment", some "30"), ("Current Enrollment", some "28")]

/-- The sample row with a spaced day pattern. -/
def spacedDaysRow : Row :=
  [("Subj", some "ALE"), ("#", some "2170"), ("Title", some "Intro"),
   ("Sec", some "001"), ("Lec Lab", some "LEC"),
   ("Start Time", some "09:00"), ("End Time", some "09:50"),
   ("Days", some "M W F"), ("Bldg", some "SCI"), ("Room", some "101"),
   ("Max Enrollment", some "30"), ("Current Enrollment", some "28")]

/-- The sample row with non-numeric max-enrollment text. -/
def wordEnrollRow : Row :=
  [("Subj", some "ALE"), ("#", some "2170"), ("Title", some "Intro"),
   ("Sec", some "001"), ("Lec Lab", some "LEC"),
   ("Start Time", some "09:00"), ("End Time", some "09:50"),
   ("Days", some "MWF"), ("Bldg", some "SCI"), ("Room", some "101"),
   ("Max Enrollment", some "thirty"), ("Current Enrollment", some "28")]

/-- The record the word-enrollment row produces for Monday. -/
def wordEnrollRec : MeetingRecord :=
  { course := "ALE 2170", title := "Intro", sec := "001", type := "LEC",
    building := "SCI", room := "101", day := "M",
    start_minutes := 540, end_minutes := 590,
    max_enrollment := none, current_enrollment := some 28 }

/-- The sample row with an out-of-range start time. -/
def lateTimeRow : Row :=
  [("Subj", some "ALE"), ("#", some "2170"), ("Title", some "Intro"),
   ("Sec", some "001"), ("Lec Lab", some "LEC"),
   ("Start Time", some "25:99"), ("End Time", some "09:50"),
   ("Days", some "MWF"), ("Bldg", some "SCI"), ("Room", some "101"),
   ("Max Enrollment", some "30"), ("Current Enrollment", some "28")]

/-- The record the late-time row produces for Monday. -/
def lateTimeRec : MeetingRecord :=
  { course := "ALE 2170", title := "Intro", sec := "001", type := "LEC",
    building := "SCI", room := "101", day := "M",
    start_minutes := 1599, end_minutes := 590,
    max_enrollment := some 30, current_enrollment := some 28 }

/-- The sample row with a title wrapping whitespace in quotes. -/
def quotedTitleRow : Row :=
  [("Subj", some "ALE"), ("#", some "2170"), ("Title", some "\" x \""),
   ("Sec", some "001"), ("Lec Lab", some "LEC"),
   ("Start Time", some "09:00"), ("End Time", some "09:50"),
   ("Days", some "MWF"), ("Bldg", some "SCI"), ("Room", some "101"),
   ("Max Enrollment", some "30"), ("Current Enrollment", some "28")]

/-- The record the quoted-title row produces for Monday. -/
def quotedTitleRec : MeetingRecord :=
  { course := "ALE 2170", title := " x ", sec := "001", type := "LEC",
    building := "SCI", room := "101", day := "M",
    start_minutes := 540, end_minutes := 590,
    max_enrollment := some 30, current_enrollment := some 28 }

/-- Zero-padded two-digit rendering of a number below 100. -/
def twoDigit (n : Nat) : String :=
  ⟨[Char.ofNat (48 + n / 10), Char.ofNat (48 + n % 10)]⟩

/-- The field names of section 3 of the specification. -/
def specFieldNames : List String :=
  ["course", "title", "section", "type", "building", "room", "day",
   "startMinutes", "endMinutes", "maxEnrollment", "currentEnrollment"]

/-- The field names the implementation actually serializes. -/
def implFieldNames : List String :=
  ["course", "title", "section", "type", "building", "room", "day",
   "start_minutes", "end_minutes", "max_enrollment", "current_enrollment"]

/-! The claims. -/

/-- C1 (amended): a row is excluded, silently and with no record emitted,
exactly when one of the specification's conditions holds — start or end
time `TBA` (case-insensitively) or empty, building empty or `ONLINE`
(case-insensitively), room `SEE NOTES` (case-insensitively), a time
failing to parse, or no recognized weekday codes — or when the building
consists only of whitespace (the code's extra `strip` test); each
condition is independently sufficient, and a row meeting none of them
produces at least one MeetingRecord. -/
theorem C1_row_filter (row : Row) :
    (codeExcluded row → processRow row = []) ∧
    (¬ codeExcluded row → processRow row ≠ []) := by
  constructor
  · exact fun h => (processRow_eq_nil_iff row).mpr h
  · exact fun h hnil => h ((processRow_eq_nil_iff row).mp hnil)

/-- C1 witness: the specification's example row is not excluded and
produces records. -/
theorem C1_row_filter_witness : processRow sampleRow ≠ [] :=
  (C1_row_filter sampleRow).2 (by decide)

/-- C1 counterexample: a building of a quoted blank satisfies none of
the claim's exclusion conditions (it is nonempty and is not `ONLINE`),
yet the row is excluded and produces no record. -/
theorem C1_counterexample :
    ¬ claimExcluded blankBldgRow ∧ processRow blankBldgRow = [] :=
  ⟨by decide, by decide⟩

/-- C2: on every zero-padded `HH:MM` with `HH` in 00..23 and `MM` in
00..59 the time encoder returns `HH*60+MM`, and on `""`, `"TBA"`,
`"14"`, `"14:"`, `"ab:cd"` it returns the explicit unparseable result
`none` instead of raising. -/
theorem C2_time_encoder :
    (∀ hh : Nat, hh < 24 → ∀ mm : Nat, mm < 60 →
      time_to_minutes (twoDigit hh ++ ":" ++ twoDigit mm) =
        some (hh * 60 + mm)) ∧
    time_to_minutes "" = none ∧ time_to_minutes "TBA" = none ∧
    time_to_minutes "14" = none ∧ time_to_minutes "14:" = none ∧
    time_to_minutes "ab:cd" = none :=
  ⟨by decide, by decide, by decide, by decide, by decide, by decide⟩

/-- C2 witness: the specification's three sample encodings. -/
theorem C2_time_encoder_witness :
    time_to_minutes "14:30" = some 870 ∧
    time_to_minutes "00:00" = some 0 ∧
    time_to_minutes "23:59" = some 1439 :=
  ⟨C2_time_encoder.1 14 (by decide) 30 (by decide),
   C2_time_encoder.1 0 (by decide) 0 (by decide),
   C2_time_encoder.1 23 (by decide) 59 (by decide)⟩

/-- C3: for every input string the day expander yields a duplicate-free
subset of the five weekday codes, equal to the first-occurrence
deduplication of the recognized-letter sequence (so in first-occurrence
order, unrecognized characters ignored); recognition is
case-insensitive; no recognized letters yields the empty list; and the
specification's examples hold. -/
theorem C3_day_expander :
    (∀ s : String,
      (parse_days s).Nodup ∧
      (∀ d, d ∈ parse_days s → d ∈ ["M", "T", "W", "R", "F"]) ∧
      parse_days s = firstOccurStr (recognizedStrings s) ∧
      parse_days (pyUpper s) = parse_days s ∧
      (recognizedStrings s = [] → parse_days s = [])) ∧
    parse_days "M  W  F   " = ["M", "W", "F"] ∧
    parse_days " T  R    " = ["T", "R"] ∧
    parse_days "MWM" = ["M", "W"] ∧
    parse_days "" = [] := by
  refine ⟨fun s => ⟨parse_days_nodup s, fun d hd => parse_days_subset s d hd,
    parse_days_eq_firstOccur s, parse_days_pyUpper s, fun h => ?_⟩,
    by decide, by decide, by decide, by decide⟩
  rw [parse_days_eq_firstOccur, h]
  rfl

/-- C3 witness: a recognized day of `"MWM"` lies in the weekday set. -/
theorem C3_day_expander_witness : "W" ∈ ["M", "T", "W", "R", "F"] :=
  (C3_day_expander.1 "MWM").2.1 "W" (by decide)

/-- C4: a surviving row with day pattern `M W F` yields exactly three
records, identical except for `day`, in the order M, W, F; within any
row the emitted days are exactly the day expander's output in its order,
and the output over a concatenation of inputs is the concatenation of
the outputs (input row order). -/
theorem C4_day_expansion :
    (∀ row : Row, normField row "Days" = "M W F" → ¬ codeExcluded row →
      ∃ r : MeetingRecord, r.day = "M" ∧
        processRow row =
          [r, { r with day := "W" }, { r with day := "F" }]) ∧
    (∀ row : Row, processRow row = [] ∨
      (processRow row).map MeetingRecord.day =
        parse_days (normField row "Days")) ∧
    (∀ rows₁ rows₂ : List Row,
      clean_course_data (rows₁ ++ rows₂) =
        clean_course_data rows₁ ++ clean_course_data rows₂) := by
  refine ⟨?_, ?_, ?_⟩
  · intro row hdays hn
    obtain ⟨sm, em, hst, het, hmap⟩ := processRow_shape row hn
    rw [hdays] at hmap
    rw [show parse_days "M W F" = ["M", "W", "F"] from by decide] at hmap
    simp only [List.map_cons, List.map_nil] at hmap
    exact ⟨_, rfl, hmap⟩
  · intro row
    by_cases h : codeExcluded row
    · exact Or.inl ((processRow_eq_nil_iff row).mpr h)
    · right
      obtain ⟨sm, em, hst, het, hmap⟩ := processRow_shape row h
      rw [hmap, List.map_map]
      show List.map (fun d : String => d) _ = _
      simp
  · intro rows₁ rows₂
    unfold clean_course_data
    rw [List.map_append, List.flatten_append]

/-- C4 witness: the expansion on a concrete `M W F` row. -/
theorem C4_day_expansion_witness :
    ∃ r : MeetingRecord, r.day = "M" ∧
      processRow spacedDaysRow =
        [r, { r with day := "W" }, { r with day := "F" }] :=
  C4_day_expansion.1 spacedDaysRow (by decide) (by decide)

/-- C5: the number of emitted records is the sum, over the rows the
filter keeps, of the number of distinct weekday codes parsed from the
row's day pattern. -/
theorem C5_record_count (rows : List Row) :
    (clean_course_data rows).length =
      (rows.map (fun row => if codeExcluded row then 0
        else (parse_days (normField row "Days")).length)).sum := by
  induction rows with
  | nil => rfl
  | cons row rest ih =>
    simp only [clean_course_data, List.map_cons, List.flatten_cons,
      List.length_append, List.sum_cons] at ih ⊢
    rw [ih]
    congr 1
    by_cases h : codeExcluded row
    · rw [if_pos h, (processRow_eq_nil_iff row).mpr h]; rfl
    · rw [if_neg h]
      obtain ⟨sm, em, _, _, hmap⟩ := processRow_shape row h
      rw [hmap, List.length_map]

/-- C6: when the normalized enrollment text is empty or not a valid
integer literal, the corresponding field is `none` in every record the
row emits — the coercion is total and never substitutes zero. -/
theorem C6_enrollment_null (row : Row) (r : MeetingRecord)
    (hr : r ∈ processRow row) :
    ((normField row "Max Enrollment" = "" ∨
        pyInt (normField row "Max Enrollment") = none) →
      r.max_enrollment = none) ∧
    ((normField row "Current Enrollment" = "" ∨
        pyInt (normField row "Current Enrollment") = none) →
      r.current_enrollment = none) := by
  obtain ⟨-, -, -, -, -, -, -, -, hmax, hcur, -⟩ :=
    mem_processRow row r hr
  constructor
  · intro h
    rw [hmax]; unfold enrollVal
    rcases h with h | h
    · rw [if_pos h]
    · by_cases he : normField row "Max Enrollment" = ""
      · rw [if_pos he]
      · rw [if_neg he]; exact h
  · intro h
    rw [hcur]; unfold enrollVal
    rcases h with h | h
    · rw [if_pos h]
    · by_cases he : normField row "Current Enrollment" = ""
      · rw [if_pos he]
      · rw [if_neg he]; exact h

/-- C6 witness: non-numeric max-enrollment text gives a `none` field. -/
theorem C6_enrollment_null_witness : wordEnrollRec.max_enrollment = none :=
  (C6_enrollment_null wordEnrollRow wordEnrollRec (by decide)).1
    (Or.inr (by decide))

/-- C7 (amended): in every emitted record both time fields are present
integers, each the successful time-encoder parse of the originating
row's time string; the range `[0, 1439]` is not guaranteed. -/
theorem C7_time_fields (rows : List Row) (r : MeetingRecord)
    (hr : r ∈ clean_course_data rows) :
    ∃ row, row ∈ rows ∧
      time_to_minutes (normField row "Start Time") =
        some r.start_minutes ∧
      time_to_minutes (normField row "End Time") =
        some r.end_minutes := by
  unfold clean_course_data at hr
  obtain ⟨l, hl, hrl⟩ := List.mem_flatten.mp hr
  obtain ⟨row, hrow, rfl⟩ := List.mem_map.mp hl
  obtain ⟨hst, het, -⟩ := mem_processRow row r hrl
  exact ⟨row, hrow, hst, het⟩

/-- C7 witness: the time fields of the sample record come from its
row's parsed times. -/
theorem C7_time_fields_witness :
    ∃ row, row ∈ [sampleRow] ∧
      time_to_minutes (normField row "Start Time") =
        some sampleRec.start_minutes ∧
      time_to_minutes (normField row "End Time") =
        some sampleRec.end_minutes :=
  C7_time_fields [sampleRow] sampleRec (by decide)

/-- C7 counterexample: a start time of `25:99` is emitted as 1599
minutes, outside `[0, 1439]`. -/
theorem C7_counterexample :
    lateTimeRec ∈ clean_course_data [lateTimeRow] ∧
    ¬ lateTimeRec.start_minutes ≤ 1439 :=
  ⟨by decide, by decide⟩

/-- C8 (amended): every emitted record serializes with the key list
`course, title, section, type, building, room, day, start_minutes,
end_minutes, max_enrollment, current_enrollment` — snake case for the
four compound names, not the camel-case names of section 3. -/
theorem C8_field_names (rows : List Row) (r : MeetingRecord)
    (hr : r ∈ clean_course_data rows) :
    (recordPairs r).map Prod.fst = implFieldNames := rfl

/-- C8 witness: the sample record's serialized key list. -/
theorem C8_field_names_witness :
    (recordPairs sampleRec).map Prod.fst = implFieldNames :=
  C8_field_names [sampleRow] sampleRec (by decide)

/-- C8 counterexample: an emitted record whose serialized key list is
not the camel-case list of section 3. -/
theorem C8_counterexample :
    sampleRec ∈ clean_course_data [sampleRow] ∧
    (recordPairs sampleRec).map Prod.fst ≠ specFieldNames :=
  ⟨by decide, by decide⟩

/-- C9 (amended): every string field carried into an emitted record is
the raw field stripped of leading/trailing whitespace and then of all
surrounding quote characters; quote removal can re-expose inner
whitespace, so a field need not be whitespace-free. -/
theorem C9_normalization (row : Row) (r : MeetingRecord)
    (hr : r ∈ processRow row) :
    r.title = pyStripQuotes (pyStrip (getField row "Title")) ∧
    r.sec = pyStripQuotes (pyStrip (getField row "Sec")) ∧
    r.building = pyStripQuotes (pyStrip (getField row "Bldg")) ∧
    r.room = pyStripQuotes (pyStrip (getField row "Room")) ∧
    r.type = normalize_course_type
      (pyStripQuotes (pyStrip (getField row "Lec Lab"))) ∧
    r.course = build_course_code
      (pyStripQuotes (pyStrip (getField row "Subj")))
      (pyStripQuotes (pyStrip (getField row "#"))) := by
  obtain ⟨-, -, hcourse, htitle, hsec, htype, hbldg, hroom, -⟩ :=
    mem_processRow row r hr
  exact ⟨htitle, hsec, hbldg, hroom, htype, hcourse⟩

/-- C9 witness: the sample record's title equals its normalized raw
field. -/
theorem C9_normalization_witness :
    sampleRec.title = pyStripQuotes (pyStrip (getField sampleRow "Title")) :=
  (C9_normalization sampleRow sampleRec (by decide)).1

/-- C9 counterexample: a title field of a quoted blankish string is
emitted with leading and trailing whitespace. -/
theorem C9_counterexample :
    quotedTitleRec ∈ clean_course_data [quotedTitleRow] ∧
    quotedTitleRec.title = " x " ∧
    pyStrip quotedTitleRec.title ≠ quotedTitleRec.title :=
  ⟨by decide, by decide, by decide⟩

/-- C10: per-row processing is a total function of the extracted field
values: every row is processed exactly like the row in which all twelve
expected columns are present and bound to the extracted strings, a
missing column and a `None` value both extracting as the empty
string. -/
theorem C10_totality :
    (∀ row : Row, processRow (materialize row) = processRow row) ∧
    (∀ k : String, getField ([] : Row) k = "") ∧
    (∀ (row : Row) (k : String), dictGet row k = some none →
      getField row k = "") := by
  refine ⟨processRow_materialize, fun k => rfl, ?_⟩
  intro row k h
  unfold getField
  rw [h]

/-- C10 witness: a `None`-valued column extracts as the empty string. -/
theorem C10_totality_witness : getField [("Days", none)] "Days" = "" :=
  C10_totality.2.2 [("Days", none)] "Days" rfl

end ClassAllo
